import Mathlib

/-!
Shallow embedding of the review-alerts monitors (monitor_reddit.py,
monitor_playstore.py, monitor_trustpilot.py) and proofs about the
incremental-change detection / deduplication core.

The SQLite "seen" tables are modelled as association lists keyed by the id
column; `SELECT 1 ... WHERE id = ?` is an existence check and
`INSERT OR REPLACE` replaces the row with the same key.  Timestamps are
modelled as integers (one unit = one hour); Python `datetime` comparison is a
linear order, which `Int` comparison reflects faithfully.
-/

namespace ReviewAlerts

/-- A classification verdict for one item on one run (spec §4.2):
the first branch of each monitor's per-item decision is `new`, the
reply-appeared branch is `updated`, the skip branch is `unchanged`. -/
inductive Classification where
  | new
  | updated
  | unchanged
deriving DecidableEq, Repr

/-! ## Generic seen-set store (one SQLite table per source) -/

/-- A store table: list of rows `(id, aux columns)`.  The aux columns are the
extra display fields each monitor writes (mod_replied, content, rating, ...). -/
abbrev Store (α : Type) : Type := List (String × α)

/-- `SELECT 1 FROM table WHERE id = ?` followed by `fetchone() is not None`:
pure existence check on the key column. -/
def storeHas {α : Type} : Store α → String → Bool
  | [], _ => false
  | e :: rest, id => if e.1 = id then true else storeHas rest id

/-- `INSERT OR REPLACE INTO table ... VALUES (id, aux)`:
the row with the same primary key is replaced. -/
def storeUpsert {α : Type} (s : Store α) (id : String) (a : α) : Store α :=
  (id, a) :: s.filter (fun e => decide (e.1 ≠ id))

theorem storeHas_filter_ne {α : Type} (s : Store α) (id j : String) (h : id ≠ j) :
    storeHas (s.filter (fun e => decide (e.1 ≠ id))) j = storeHas s j := by
  induction s with
  | nil => rfl
  | cons e rest ih =>
    rw [List.filter_cons]
    by_cases he : e.1 = id
    · rw [if_neg (by simp [he]), ih]
      have hej : e.1 ≠ j := fun hh => h (he ▸ hh)
      show storeHas rest j = storeHas (e :: rest) j
      simp only [storeHas]
      rw [if_neg hej]
    · rw [if_pos (by simp [he])]
      simp only [storeHas]
      by_cases hj : e.1 = j
      · rw [if_pos hj, if_pos hj]
      · rw [if_neg hj, if_neg hj, ih]

theorem storeHas_upsert {α : Type} (s : Store α) (id j : String) (a : α) :
    storeHas (storeUpsert s id a) j = (if id = j then true else storeHas s j) := by
  unfold storeUpsert
  by_cases h : id = j
  · simp [storeHas, h]
  · simp only [storeHas, if_neg h]
    exact storeHas_filter_ne s id j h

theorem storeHas_upsert_of_has {α : Type} (s : Store α) (id j : String) (a : α)
    (h : storeHas s j = true) : storeHas (storeUpsert s id a) j = true := by
  rw [storeHas_upsert]
  by_cases hij : id = j <;> simp [hij, h]

theorem storeHas_upsert_self {α : Type} (s : Store α) (id : String) (a : α) :
    storeHas (storeUpsert s id a) id = true := by
  rw [storeHas_upsert]; simp

/-! ## Python string helpers -/

/-- Characters Python's `str.strip()` removes. -/
def isPySpace (c : Char) : Bool :=
  c = ' ' || c = '\t' || c = '\n' || c = '\r' || c = Char.ofNat 11 || c = Char.ofNat 12

/-- Python `str.strip()`. -/
def pyStrip (s : String) : String :=
  ⟨((s.data.dropWhile isPySpace).reverse.dropWhile isPySpace).reverse⟩

/-- Python `str.lower()` (ASCII case folding suffices for the inputs here). -/
def pyLower (s : String) : String :=
  ⟨s.data.map Char.toLower⟩

/-! ## Reddit monitor (monitor_reddit.py) -/

namespace Reddit

/-- One raw comment node: `kind`, `data.author` (missing author modelled as
`""`, matching `c.get("author", "")`), and the nested `replies` children. -/
structure RComment where
  kind : String
  author : String
  replies : List RComment
deriving Repr

/-- A fetched post: its `id` and the raw comment forest fetched for it. -/
structure RedditPost where
  id : String
  comments : List RComment
deriving Repr

/-- The `alerted_posts` table: key `post_id`, aux column `mod_replied`. -/
abbrev RedditStore : Type := Store Bool

/-- `has_been_alerted(post_id)`. -/
def has_been_alerted (s : RedditStore) (postId : String) : Bool :=
  storeHas s postId

/-- `mark_as_alerted(post_id, mod_replied)`. -/
def mark_as_alerted (s : RedditStore) (postId : String) (modReplied : Bool) :
    RedditStore :=
  storeUpsert s postId modReplied

/-- `extract_all_comments`: flatten the nested comment forest depth-first,
keeping only nodes of kind `"t1"` (a skipped node's subtree is not visited). -/
def extract_all_comments : List RComment → List RComment
  | [] => []
  | c :: rest =>
    if c.kind = "t1" then
      c :: (extract_all_comments c.replies ++ extract_all_comments rest)
    else
      extract_all_comments rest
termination_by l => sizeOf l
decreasing_by
  all_goals simp_wf
  all_goals cases c
  all_goals simp only [RComment.mk.sizeOf_spec]
  all_goals omega

/-- The loop body of `has_mod_reply`: collect `author.lower()` for every
comment whose lowercased author is in `MOD_USERNAMES`, in order. -/
def modNamesIn (mods : List String) : List RComment → List String
  | [] => []
  | c :: rest =>
    if pyLower c.author ∈ mods then
      pyLower c.author :: modNamesIn mods rest
    else
      modNamesIn mods rest

/-- `has_mod_reply(comments)`: returns `(bool(mod_names), mod_names)`. -/
def has_mod_reply (mods : List String) (comments : List RComment) :
    Bool × List String :=
  let ns := modNamesIn mods comments
  (!ns.isEmpty, ns)

/-- `send_to_slack` deduplicates the reported names via `list(set(mod_names))`
before rendering them in the message. -/
def slackModNames (ns : List String) : List String :=
  ns.dedup

/-- The per-post body of `main`'s loop: flatten comments, compute the mod-reply
flag, then the if/elif/else chain deciding alert, update and classification.
Returns (store after the post, classification, whether a Slack dispatch
happened). -/
def redditStep (mods : List String) (store : RedditStore) (post : RedditPost) :
    RedditStore × Classification × Bool :=
  let flat := extract_all_comments post.comments
  let modReplyFound := (has_mod_reply mods flat).1
  if has_been_alerted store post.id = false then
    (mark_as_alerted store post.id modReplyFound, Classification.new, true)
  else if modReplyFound = true ∧ has_been_alerted store post.id = false then
    (mark_as_alerted store post.id modReplyFound, Classification.updated, true)
  else
    (store, Classification.unchanged, false)

/-- `main`'s loop over the fetched posts, threading the store; yields the
classification and dispatch decision per post in fetch order. -/
def redditRun (mods : List String) : RedditStore → List RedditPost →
    List (Classification × Bool)
  | _, [] => []
  | store, p :: rest =>
    let r := redditStep mods store p
    (r.2.1, r.2.2) :: redditRun mods r.1 rest

end Reddit

/-! ## Canonical review record (shared shape of the two `Review` dataclasses) -/

/-- The `Review` dataclass of monitor_playstore.py / monitor_trustpilot.py. -/
structure Review where
  review_id : String
  title : String
  content : String
  rating : Int
  date_time : Int
  reviewer_name : String
  company_replied : Bool
  reply_content : Option String
  reply_date : Option Int
deriving DecidableEq, Repr

/-! ## Play Store monitor (monitor_playstore.py) -/

namespace Playstore

/-- One raw record from the scraper result.  The keys the code reads
(`at`, `reviewId`, `content`, `score`, `userName`) raise `KeyError` when
missing, modelled as `none`; `replyContent` / `repliedAt` are legitimately
`None` for reviews without a reply. -/
structure RawPSReview where
  at_ : Option Int
  reviewId : Option String
  content : Option String
  score : Option Int
  userName : Option String
  replyContent : Option String
  repliedAt : Option Int
deriving DecidableEq, Repr

/-- The `processed_reviews` table, keyed by `review_id`; the remaining
columns (content, rating, ..., reply state) are stored as the aux value. -/
abbrev PSStore : Type := Store Review

/-- `is_review_processed(review_id)`. -/
def is_review_processed (s : PSStore) (reviewId : String) : Bool :=
  storeHas s reviewId

/-- `save_review(review)`. -/
def save_review (s : PSStore) (r : Review) : PSStore :=
  storeUpsert s r.review_id r

/-- The body of `fetch_reviews`' inner `for r in result` loop for one raw
record: `none` means an exception was raised (missing field), `some (s, none)`
means the record was skipped (too old, or already processed), and
`some (s, some rev)` means the review was saved and collected.
Python truthiness of `r['replyContent']` maps `None`/`""` to `False`. -/
def processPSRecord (cutoff : Int) (store : PSStore) (r : RawPSReview) :
    Option (PSStore × Option Review) :=
  match r.at_ with
  | none => none
  | some dt =>
    if dt < cutoff then some (store, none)
    else
      match r.reviewId with
      | none => none
      | some rid =>
        if is_review_processed store rid then some (store, none)
        else
          match r.content, r.score, r.userName with
          | some content, some score, some userName =>
            let rev : Review :=
              { review_id := rid
                title := "No title"
                content := content
                rating := score
                date_time := dt
                reviewer_name := userName
                company_replied := decide (r.replyContent.getD "" ≠ "")
                reply_content := r.replyContent
                reply_date := r.repliedAt }
            some (save_review store rev, some rev)
          | _, _, _ => none

/-- One (country, language) batch of `fetch_reviews`: the whole `for r in
result` loop sits inside a single `try`, so the first record that raises
aborts the remainder of that batch (keeping the store writes and collected
reviews made so far). -/
def processLocale (cutoff : Int) : PSStore → List Review → List RawPSReview →
    PSStore × List Review
  | store, acc, [] => (store, acc)
  | store, acc, r :: rest =>
    match processPSRecord cutoff store r with
    | none => (store, acc)
    | some (store2, none) => processLocale cutoff store2 acc rest
    | some (store2, some rev) => processLocale cutoff store2 (acc ++ [rev]) rest

/-- `fetch_reviews`: iterate the locale batches (the fan-out over the
country/language map), threading the store and accumulating `new_reviews`;
an exception in one batch does not stop the following batches. -/
def fetch_reviews (cutoff : Int) : PSStore → List Review →
    List (List RawPSReview) → PSStore × List Review
  | store, acc, [] => (store, acc)
  | store, acc, batch :: more =>
    let r := processLocale cutoff store acc batch
    fetch_reviews cutoff r.1 r.2 more

/-- The `__main__` dispatch loop: `for r in reviews: if r.rating <= 5:
send_review_to_slack(r, ...)`. -/
def playstore_dispatched (revs : List Review) : List Review :=
  revs.filter (fun r => decide (r.rating ≤ 5))

end Playstore

/-! ## Trustpilot monitor (monitor_trustpilot.py) -/

namespace Trustpilot

/-- The `processed_reviews` table, keyed by `review_id`. -/
abbrev TStore : Type := Store Review

/-- `is_review_processed(review_id)`. -/
def is_review_processed (s : TStore) (reviewId : String) : Bool :=
  storeHas s reviewId

/-- `save_review(review)`. -/
def save_review (s : TStore) (r : Review) : TStore :=
  storeUpsert s r.review_id r

/-- The `invalid_titles` list of `is_valid_review`. -/
def invalidTitles : List String :=
  ["no title", "", "...", "null", "undefined", "n/a", "not available"]

/-- The `invalid_content_patterns` list of `is_valid_review`. -/
def invalidContentPatterns : List String :=
  ["", "...", ".", "no content", "null", "undefined", "n/a", "not available"]

/-- The placeholder reviewer names rejected by `is_valid_review`. -/
def invalidReviewerNames : List String :=
  ["anonymous", "", "null", "undefined"]

/-- The regex `^\.{3,}$`: the whole string is three or more dots. -/
def onlyDots (s : String) : Bool :=
  decide (3 ≤ s.length) && s.data.all (fun c => c = '.')

/-- `is_valid_review(review)`: the early-return chain in source order. -/
def is_valid_review (r : Review) : Bool :=
  if pyStrip (pyLower r.title) ∈ invalidTitles then false
  else if pyStrip (pyLower r.content) ∈ invalidContentPatterns then false
  else if (pyStrip r.content).length < 5 then false
  else if onlyDots (pyStrip r.content) then false
  else if r.reviewer_name = "" ∨ pyLower r.reviewer_name ∈ invalidReviewerNames then false
  else if r.rating < 1 ∨ 5 < r.rating then false
  else true

/-- One review container scraped from a page.  The HTML selector heuristics
are out of scope (spec non-goal); what matters to the core is that extraction
either produces a `Review` or raises (`bad`), caught by the `try/except` of
`extract_review_data`. -/
inductive TContainer where
  | ok (r : Review)
  | bad
deriving DecidableEq, Repr

/-- `extract_review_data(review_element)`: `None` on exception, `None` when
`is_valid_review` rejects the extracted review, the review otherwise. -/
def extract_review_data : TContainer → Option Review
  | TContainer.bad => none
  | TContainer.ok r => if is_valid_review r then some r else none

/-- The per-page loop of `scrape_reviews`: each container is extracted
independently; a `None` increments `skipped_count` and the loop continues. -/
def extractPage (cs : List TContainer) : List Review :=
  cs.filterMap extract_review_data

/-- The loop of `get_new_reviews`: keep a review iff its timestamp is at or
after the cutoff and its id is not in the store; each kept review is saved
immediately, so later duplicates in the same batch are skipped. -/
def get_new_reviews_go (cutoff : Int) : TStore → List Review → List Review →
    TStore × List Review
  | store, acc, [] => (store, acc)
  | store, acc, r :: rest =>
    if cutoff ≤ r.date_time ∧ is_review_processed store r.review_id = false then
      get_new_reviews_go cutoff (save_review store r) (acc ++ [r]) rest
    else
      get_new_reviews_go cutoff store acc rest

/-- `get_new_reviews(hours_back)` applied to the scraped list, with
`cutoff = datetime.now() - timedelta(hours=hours_back)` passed explicitly. -/
def get_new_reviews (cutoff : Int) (store : TStore) (scraped : List Review) :
    TStore × List Review :=
  get_new_reviews_go cutoff store [] scraped

/-- `get_negative_reviews` / the `negative_reviews` field of
`analyze_reviews`: the new reviews whose rating is at most the threshold. -/
def get_negative_reviews (cutoff threshold : Int) (store : TStore)
    (scraped : List Review) : List Review :=
  ((get_new_reviews cutoff store scraped).2).filter
    (fun r => decide (r.rating ≤ threshold))

/-- `main`'s Slack dispatch loop sends exactly the reviews in
`analysis['negative_reviews']`. -/
def trustpilot_dispatched (cutoff threshold : Int) (store : TStore)
    (scraped : List Review) : List Review :=
  get_negative_reviews cutoff threshold store scraped

end Trustpilot

/-! ## Concrete sample data used by witnesses and counterexamples -/

/-- A moderator configuration (all lowercase, as assumed by the matching). -/
def exMods : List String := ["mod1"]

/-- A moderator configuration containing an uppercase letter. -/
def exModsUpper : List String := ["Mod1"]

/-- A post whose comment forest contains a moderator reply. -/
def exPost : Reddit.RedditPost := ⟨"p1", [⟨"t1", "mod1", []⟩]⟩

/-- An `alerted_posts` table already containing `p1`, recorded without a
moderator reply (`mod_replied = 0`). -/
def exStoreP1 : Reddit.RedditStore := [("p1", false)]

/-- The same table with the opposite `mod_replied` value. -/
def exStoreP1R : Reddit.RedditStore := [("p1", true)]

/-- A valid five-star review fetched five hours before `now = 100`. -/
def tpFine : Review :=
  ⟨"tp5", "Great product", "Loved it a lot", 5, 95, "John", false, none, none⟩

/-- A valid two-star review at the same time. -/
def tpLow : Review :=
  ⟨"tp2", "Bad product", "Really not great", 2, 95, "Jane", false, none, none⟩

/-- A review whose content is six dots: not `"..."`, stripped length 6. -/
def tpDots : Review :=
  ⟨"tpdots", "Great product", "......", 5, 95, "John", false, none, none⟩

/-- A well-formed raw Play Store record with id `a`. -/
def psGood1 : Playstore.RawPSReview :=
  ⟨some 10, some "a", some "good one!", some 5, some "Ann", none, none⟩

/-- A malformed raw record: the `content` field is missing (KeyError). -/
def psBad : Playstore.RawPSReview :=
  ⟨some 10, some "b", none, some 4, some "Bob", none, none⟩

/-- A well-formed raw Play Store record with id `c`. -/
def psGood2 : Playstore.RawPSReview :=
  ⟨some 10, some "c", some "also fine", some 3, some "Cid", none, none⟩

/-- `tpFine` as fetched after a company reply appeared: same id, different
reply state. -/
def tpFineReplied : Review :=
  ⟨"tp5", "Great product", "Loved it a lot", 5, 95, "John", true, some "thanks", some 96⟩

/-- The parsed review produced from `psGood1`. -/
def psRev1 : Review :=
  ⟨"a", "No title", "good one!", 5, 10, "Ann", false, none, none⟩

/-- The same stored row with a developer reply recorded. -/
def psRev1R : Review :=
  ⟨"a", "No title", "good one!", 5, 10, "Ann", true, some "ty", some 12⟩

/-- `psGood1` fetched again after the developer replied. -/
def psGood1R : Playstore.RawPSReview :=
  ⟨some 10, some "a", some "good one!", some 5, some "Ann", some "ty", some 12⟩

/-! ## Helper lemmas -/

theorem redditStep_congr (mods : List String) (s1 s2 : Reddit.RedditStore)
    (p : Reddit.RedditPost) (h : ∀ id, storeHas s1 id = storeHas s2 id) :
    (Reddit.redditStep mods s1 p).2 = (Reddit.redditStep mods s2 p).2
    ∧ ∀ id, storeHas (Reddit.redditStep mods s1 p).1 id
        = storeHas (Reddit.redditStep mods s2 p).1 id := by
  have hkey := h p.id
  unfold Reddit.redditStep
  simp only [Reddit.has_been_alerted] at hkey ⊢
  simp only [hkey]
  split_ifs with h1 h2
  · refine ⟨rfl, fun id => ?_⟩
    simp only [Reddit.mark_as_alerted]
    rw [storeHas_upsert, storeHas_upsert]
    by_cases hij : p.id = id <;> simp [hij, h id]
  · exact absurd h2.2 h1
  · exact ⟨rfl, h⟩

theorem redditRun_congr (mods : List String) (posts : List Reddit.RedditPost) :
    ∀ s1 s2 : Reddit.RedditStore, (∀ id, storeHas s1 id = storeHas s2 id) →
    Reddit.redditRun mods s1 posts = Reddit.redditRun mods s2 posts := by
  induction posts with
  | nil => intro s1 s2 _; rfl
  | cons p rest ih =>
    intro s1 s2 h
    have hc := redditStep_congr mods s1 s2 p h
    have h21 : (Reddit.redditStep mods s1 p).2.1 = (Reddit.redditStep mods s2 p).2.1 := by
      rw [hc.1]
    have h22 : (Reddit.redditStep mods s1 p).2.2 = (Reddit.redditStep mods s2 p).2.2 := by
      rw [hc.1]
    simp only [Reddit.redditRun]
    rw [h21, h22, ih _ _ hc.2]

theorem tp_go_congr (cutoff : Int) (rs : List Review) :
    ∀ s1 s2 : Trustpilot.TStore, ∀ acc : List Review,
    (∀ id, storeHas s1 id = storeHas s2 id) →
    (Trustpilot.get_new_reviews_go cutoff s1 acc rs).2
      = (Trustpilot.get_new_reviews_go cutoff s2 acc rs).2
    ∧ ∀ id, storeHas (Trustpilot.get_new_reviews_go cutoff s1 acc rs).1 id
        = storeHas (Trustpilot.get_new_reviews_go cutoff s2 acc rs).1 id := by
  induction rs with
  | nil => intro s1 s2 acc h; exact ⟨rfl, h⟩
  | cons r rest ih =>
    intro s1 s2 acc h
    have hkey := h r.review_id
    unfold Trustpilot.get_new_reviews_go
    simp only [Trustpilot.is_review_processed] at hkey ⊢
    simp only [hkey]
    split_ifs with h1
    · refine ih (Trustpilot.save_review s1 r) (Trustpilot.save_review s2 r)
        (acc ++ [r]) (fun id => ?_)
      simp only [Trustpilot.save_review]
      rw [storeHas_upsert, storeHas_upsert]
      by_cases hij : r.review_id = id <;> simp [hij, h id]
    · exact ih s1 s2 acc h

theorem tp_go_mem (cutoff : Int) (rs : List Review) :
    ∀ store : Trustpilot.TStore, ∀ acc : List Review, ∀ r : Review,
    r ∈ (Trustpilot.get_new_reviews_go cutoff store acc rs).2 →
    r ∈ acc ∨ Trustpilot.is_review_processed store r.review_id = false := by
  induction rs with
  | nil => intro store acc r hmem; exact Or.inl hmem
  | cons r0 rest ih =>
    intro store acc r hmem
    unfold Trustpilot.get_new_reviews_go at hmem
    by_cases hc : cutoff ≤ r0.date_time
        ∧ Trustpilot.is_review_processed store r0.review_id = false
    · rw [if_pos hc] at hmem
      rcases ih _ _ _ hmem with hin | hnp
      · rcases List.mem_append.mp hin with hin2 | hin2
        · exact Or.inl hin2
        · have : r = r0 := List.mem_singleton.mp hin2
          subst this
          exact Or.inr hc.2
      · right
        by_contra hcon
        have hhas : Trustpilot.is_review_processed store r.review_id = true := by
          cases hres : Trustpilot.is_review_processed store r.review_id
          · exact absurd hres hcon
          · rfl
        have : Trustpilot.is_review_processed
            (Trustpilot.save_review store r0) r.review_id = true := by
          simp only [Trustpilot.is_review_processed, Trustpilot.save_review] at hhas ⊢
          exact storeHas_upsert_of_has _ _ _ _ hhas
        rw [this] at hnp
        exact Bool.noConfusion hnp
    · rw [if_neg hc] at hmem
      exact ih _ _ _ hmem

theorem tp_mem_not_processed (cutoff : Int) (store : Trustpilot.TStore)
    (rs : List Review) (r : Review)
    (h : r ∈ (Trustpilot.get_new_reviews cutoff store rs).2) :
    Trustpilot.is_review_processed store r.review_id = false := by
  rcases tp_go_mem cutoff rs store [] r h with hin | hnp
  · exact absurd hin (List.not_mem_nil r)
  · exact hnp

theorem tp_single_new (cutoff : Int) (ts : Trustpilot.TStore) (r : Review)
    (h1 : Trustpilot.is_review_processed ts r.review_id = false)
    (h2 : cutoff ≤ r.date_time) :
    Trustpilot.get_new_reviews cutoff ts [r] = (Trustpilot.save_review ts r, [r]) := by
  simp [Trustpilot.get_new_reviews, Trustpilot.get_new_reviews_go, h1, h2]

theorem processPSRecord_cases (cutoff : Int) (store : Playstore.PSStore)
    (r : Playstore.RawPSReview) :
    Playstore.processPSRecord cutoff store r = none
    ∨ Playstore.processPSRecord cutoff store r = some (store, none)
    ∨ ∃ rev : Review, Playstore.processPSRecord cutoff store r
          = some (Playstore.save_review store rev, some rev)
        ∧ storeHas store rev.review_id = false := by
  cases hat : r.at_ with
  | none =>
    left
    simp [Playstore.processPSRecord, hat]
  | some dt =>
    by_cases hdt : dt < cutoff
    · right; left
      simp [Playstore.processPSRecord, hat, hdt]
    · cases hid : r.reviewId with
      | none =>
        left
        simp [Playstore.processPSRecord, hat, hdt, hid]
      | some rid =>
        by_cases hproc : Playstore.is_review_processed store rid = true
        · right; left
          simp [Playstore.processPSRecord, hat, hdt, hid, hproc]
        · cases hco : r.content with
          | none =>
            left
            simp [Playstore.processPSRecord, hat, hdt, hid, hproc, hco]
          | some content =>
            cases hsc : r.score with
            | none =>
              left
              simp [Playstore.processPSRecord, hat, hdt, hid, hproc, hco, hsc]
            | some score =>
              cases hun : r.userName with
              | none =>
                left
                simp [Playstore.processPSRecord, hat, hdt, hid, hproc, hco, hsc, hun]
              | some userName =>
                refine Or.inr (Or.inr
                  ⟨{ review_id := rid
                     title := "No title"
                     content := content
                     rating := score
                     date_time := dt
                     reviewer_name := userName
                     company_replied := decide (r.replyContent.getD "" ≠ "")
                     reply_content := r.replyContent
                     reply_date := r.repliedAt }, ?_, ?_⟩)
                · simp [Playstore.processPSRecord, hat, hdt, hid, hproc, hco, hsc, hun]
                · simp only [Playstore.is_review_processed] at hproc
                  simpa using hproc

theorem ps_locale_inv (cutoff : Int) (rs : List Playstore.RawPSReview) :
    ∀ store : Playstore.PSStore, ∀ acc : List Review,
    (∀ rv ∈ acc, storeHas store rv.review_id = true) →
    ((acc.map (fun rv => rv.review_id)).Nodup) →
    (∀ rv ∈ (Playstore.processLocale cutoff store acc rs).2,
        storeHas (Playstore.processLocale cutoff store acc rs).1 rv.review_id = true)
    ∧ ((Playstore.processLocale cutoff store acc rs).2.map
        (fun rv => rv.review_id)).Nodup := by
  induction rs with
  | nil => intro store acc h1 h2; exact ⟨h1, h2⟩
  | cons r rest ih =>
    intro store acc h1 h2
    rcases processPSRecord_cases cutoff store r with hc | hc | ⟨rev, hc, hfresh⟩
    · unfold Playstore.processLocale
      rw [hc]
      exact ⟨h1, h2⟩
    · unfold Playstore.processLocale
      rw [hc]
      exact ih store acc h1 h2
    · unfold Playstore.processLocale
      rw [hc]
      apply ih
      · intro rv hrv
        rcases List.mem_append.mp hrv with hin | hin
        · exact storeHas_upsert_of_has _ _ _ _ (h1 rv hin)
        · have : rv = rev := List.mem_singleton.mp hin
          subst this
          exact storeHas_upsert_self _ _ _
      · rw [List.map_append]
        rw [List.nodup_append]
        refine ⟨h2, List.nodup_singleton _, ?_⟩
        intro x hx hx2
        have hxid : x = rev.review_id := by
          simpa using hx2
        subst hxid
        rcases List.mem_map.mp hx with ⟨rv, hrv, hid⟩
        have := h1 rv hrv
        rw [hid] at this
        rw [this] at hfresh
        exact Bool.noConfusion hfresh

theorem ps_fetch_inv (cutoff : Int) (batches : List (List Playstore.RawPSReview)) :
    ∀ store : Playstore.PSStore, ∀ acc : List Review,
    (∀ rv ∈ acc, storeHas store rv.review_id = true) →
    ((acc.map (fun rv => rv.review_id)).Nodup) →
    (∀ rv ∈ (Playstore.fetch_reviews cutoff store acc batches).2,
        storeHas (Playstore.fetch_reviews cutoff store acc batches).1 rv.review_id = true)
    ∧ ((Playstore.fetch_reviews cutoff store acc batches).2.map
        (fun rv => rv.review_id)).Nodup := by
  induction batches with
  | nil => intro store acc h1 h2; exact ⟨h1, h2⟩
  | cons batch more ih =>
    intro store acc h1 h2
    have hstep := ps_locale_inv cutoff batch store acc h1 h2
    unfold Playstore.fetch_reviews
    exact ih _ _ hstep.1 hstep.2

theorem ps_locale_mem (cutoff : Int) (rs : List Playstore.RawPSReview) :
    ∀ store : Playstore.PSStore, ∀ acc : List Review, ∀ rv : Review,
    rv ∈ (Playstore.processLocale cutoff store acc rs).2 →
    rv ∈ acc ∨ storeHas store rv.review_id = false := by
  induction rs with
  | nil => intro store acc rv hmem; exact Or.inl hmem
  | cons r rest ih =>
    intro store acc rv hmem
    rcases processPSRecord_cases cutoff store r with hc | hc | ⟨rev, hc, hfresh⟩
    · unfold Playstore.processLocale at hmem
      rw [hc] at hmem
      exact Or.inl hmem
    · unfold Playstore.processLocale at hmem
      rw [hc] at hmem
      exact ih store acc rv hmem
    · unfold Playstore.processLocale at hmem
      rw [hc] at hmem
      rcases ih _ _ _ hmem with hin | hnp
      · rcases List.mem_append.mp hin with hin2 | hin2
        · exact Or.inl hin2
        · have : rv = rev := List.mem_singleton.mp hin2
          subst this
          exact Or.inr hfresh
      · right
        by_contra hcon
        have hhas : storeHas store rv.review_id = true := by
          cases hres : storeHas store rv.review_id
          · exact absurd hres hcon
          · rfl
        have := storeHas_upsert_of_has store rev.review_id rv.review_id rev hhas
        simp only [Playstore.save_review] at hnp
        rw [this] at hnp
        exact Bool.noConfusion hnp

theorem ps_locale_mono (cutoff : Int) (rs : List Playstore.RawPSReview) :
    ∀ store : Playstore.PSStore, ∀ acc : List Review, ∀ id : String,
    storeHas store id = true →
    storeHas (Playstore.processLocale cutoff store acc rs).1 id = true := by
  induction rs with
  | nil => intro store acc id hhas; exact hhas
  | cons r rest ih =>
    intro store acc id hhas
    rcases processPSRecord_cases cutoff store r with hc | hc | ⟨rev, hc, _⟩
    · unfold Playstore.processLocale
      rw [hc]; exact hhas
    · unfold Playstore.processLocale
      rw [hc]; exact ih store acc id hhas
    · unfold Playstore.processLocale
      rw [hc]
      exact ih _ _ id (storeHas_upsert_of_has _ _ _ _ hhas)

theorem ps_fetch_mem (cutoff : Int) (batches : List (List Playstore.RawPSReview)) :
    ∀ store : Playstore.PSStore, ∀ acc : List Review, ∀ rv : Review,
    rv ∈ (Playstore.fetch_reviews cutoff store acc batches).2 →
    rv ∈ acc ∨ storeHas store rv.review_id = false := by
  induction batches with
  | nil => intro store acc rv hmem; exact Or.inl hmem
  | cons batch more ih =>
    intro store acc rv hmem
    unfold Playstore.fetch_reviews at hmem
    rcases ih _ _ _ hmem with hin | hnp
    · rcases ps_locale_mem cutoff batch store acc rv hin with h | h
      · exact Or.inl h
      · exact Or.inr h
    · right
      by_contra hcon
      have hhas : storeHas store rv.review_id = true := by
        cases hres : storeHas store rv.review_id
        · exact absurd hres hcon
        · rfl
      have hmono := ps_locale_mono cutoff batch store acc rv.review_id hhas
      rw [hmono] at hnp
      exact Bool.noConfusion hnp

theorem processPSRecord_congr (cutoff : Int) (r : Playstore.RawPSReview)
    (s1 s2 : Playstore.PSStore) (h : ∀ id, storeHas s1 id = storeHas s2 id) :
    (Playstore.processPSRecord cutoff s1 r = none
      ∧ Playstore.processPSRecord cutoff s2 r = none)
    ∨ ∃ orev : Option Review, ∃ s1b s2b : Playstore.PSStore,
        Playstore.processPSRecord cutoff s1 r = some (s1b, orev)
        ∧ Playstore.processPSRecord cutoff s2 r = some (s2b, orev)
        ∧ ∀ id, storeHas s1b id = storeHas s2b id := by
  cases hat : r.at_ with
  | none =>
    left
    constructor <;> simp [Playstore.processPSRecord, hat]
  | some dt =>
    by_cases hdt : dt < cutoff
    · right
      refine ⟨none, s1, s2, ?_, ?_, h⟩ <;> simp [Playstore.processPSRecord, hat, hdt]
    · cases hid : r.reviewId with
      | none =>
        left
        constructor <;> simp [Playstore.processPSRecord, hat, hdt, hid]
      | some rid =>
        have hkey : Playstore.is_review_processed s1 rid
            = Playstore.is_review_processed s2 rid := h rid
        by_cases hproc : Playstore.is_review_processed s1 rid = true
        · right
          refine ⟨none, s1, s2, ?_, ?_, h⟩
          · simp [Playstore.processPSRecord, hat, hdt, hid, hproc]
          · simp [Playstore.processPSRecord, hat, hdt, hid, hkey ▸ hproc]
        · have hproc2 : ¬ Playstore.is_review_processed s2 rid = true := by
            rw [← hkey]; exact hproc
          cases hco : r.content with
          | none =>
            left
            constructor <;>
              simp [Playstore.processPSRecord, hat, hdt, hid, hproc, hproc2, hco]
          | some content =>
            cases hsc : r.score with
            | none =>
              left
              constructor <;>
                simp [Playstore.processPSRecord, hat, hdt, hid, hproc, hproc2, hco, hsc]
            | some score =>
              cases hun : r.userName with
              | none =>
                left
                constructor <;>
                  simp [Playstore.processPSRecord, hat, hdt, hid, hproc, hproc2,
                    hco, hsc, hun]
              | some userName =>
                right
                set REV : Review :=
                  { review_id := rid
                    title := "No title"
                    content := content
                    rating := score
                    date_time := dt
                    reviewer_name := userName
                    company_replied := decide (r.replyContent.getD "" ≠ "")
                    reply_content := r.replyContent
                    reply_date := r.repliedAt } with hREV
                refine ⟨some REV, Playstore.save_review s1 REV,
                  Playstore.save_review s2 REV, ?_, ?_, ?_⟩
                · simp [Playstore.processPSRecord, hat, hdt, hid, hproc,
                    hco, hsc, hun, hREV]
                · simp [Playstore.processPSRecord, hat, hdt, hid, hproc2,
                    hco, hsc, hun, hREV]
                · intro id
                  simp only [Playstore.save_review]
                  rw [storeHas_upsert, storeHas_upsert]
                  by_cases hij : REV.review_id = id <;> simp [hij, h id]

theorem ps_locale_congr (cutoff : Int) (rs : List Playstore.RawPSReview) :
    ∀ s1 s2 : Playstore.PSStore, ∀ acc : List Review,
    (∀ id, storeHas s1 id = storeHas s2 id) →
    (Playstore.processLocale cutoff s1 acc rs).2
      = (Playstore.processLocale cutoff s2 acc rs).2
    ∧ ∀ id, storeHas (Playstore.processLocale cutoff s1 acc rs).1 id
        = storeHas (Playstore.processLocale cutoff s2 acc rs).1 id := by
  induction rs with
  | nil => intro s1 s2 acc h; exact ⟨rfl, h⟩
  | cons r rest ih =>
    intro s1 s2 acc h
    rcases processPSRecord_congr cutoff r s1 s2 h with ⟨hc1, hc2⟩ | ⟨orev, s1b, s2b, hc1, hc2, hb⟩
    · unfold Playstore.processLocale
      rw [hc1, hc2]
      exact ⟨rfl, h⟩
    · unfold Playstore.processLocale
      rw [hc1, hc2]
      cases orev with
      | none => exact ih s1b s2b acc hb
      | some rev => exact ih s1b s2b (acc ++ [rev]) hb

theorem ps_fetch_congr (cutoff : Int) (batches : List (List Playstore.RawPSReview)) :
    ∀ s1 s2 : Playstore.PSStore, ∀ acc : List Review,
    (∀ id, storeHas s1 id = storeHas s2 id) →
    (Playstore.fetch_reviews cutoff s1 acc batches).2
      = (Playstore.fetch_reviews cutoff s2 acc batches).2 := by
  induction batches with
  | nil => intro s1 s2 acc _; rfl
  | cons batch more ih =>
    intro s1 s2 acc h
    have hb := ps_locale_congr cutoff batch s1 s2 acc h
    show (Playstore.fetch_reviews cutoff (Playstore.processLocale cutoff s1 acc batch).1
        (Playstore.processLocale cutoff s1 acc batch).2 more).2
      = (Playstore.fetch_reviews cutoff (Playstore.processLocale cutoff s2 acc batch).1
        (Playstore.processLocale cutoff s2 acc batch).2 more).2
    rw [hb.1]
    exact ih _ _ _ hb.2

theorem ps_locale_append_abort (cutoff : Int) (bad : Playstore.RawPSReview)
    (post : List Playstore.RawPSReview) :
    ∀ pre : List Playstore.RawPSReview,
    ∀ store : Playstore.PSStore, ∀ acc : List Review,
    Playstore.processPSRecord cutoff
        (Playstore.processLocale cutoff store acc pre).1 bad = none →
    Playstore.processLocale cutoff store acc (pre ++ bad :: post)
      = Playstore.processLocale cutoff store acc pre := by
  intro pre
  induction pre with
  | nil =>
    intro store acc h
    have h0 : Playstore.processPSRecord cutoff store bad = none := h
    simp [Playstore.processLocale, h0]
  | cons r rest ih =>
    intro store acc h
    cases hpr : Playstore.processPSRecord cutoff store r with
    | none =>
      show Playstore.processLocale cutoff store acc (r :: (rest ++ bad :: post))
        = Playstore.processLocale cutoff store acc (r :: rest)
      simp only [Playstore.processLocale, hpr]
    | some pair =>
      rcases pair with ⟨s2, orev⟩
      cases orev with
      | none =>
        have hstep : Playstore.processLocale cutoff store acc (r :: rest)
            = Playstore.processLocale cutoff s2 acc rest := by
          simp only [Playstore.processLocale, hpr]
        have hstep2 : Playstore.processLocale cutoff store acc (r :: (rest ++ bad :: post))
            = Playstore.processLocale cutoff s2 acc (rest ++ bad :: post) := by
          simp only [Playstore.processLocale, hpr]
        rw [hstep] at h
        show Playstore.processLocale cutoff store acc (r :: (rest ++ bad :: post))
          = Playstore.processLocale cutoff store acc (r :: rest)
        rw [hstep2, hstep]
        exact ih s2 acc h
      | some rev =>
        have hstep : Playstore.processLocale cutoff store acc (r :: rest)
            = Playstore.processLocale cutoff s2 (acc ++ [rev]) rest := by
          simp only [Playstore.processLocale, hpr]
        have hstep2 : Playstore.processLocale cutoff store acc (r :: (rest ++ bad :: post))
            = Playstore.processLocale cutoff s2 (acc ++ [rev]) (rest ++ bad :: post) := by
          simp only [Playstore.processLocale, hpr]
        rw [hstep] at h
        show Playstore.processLocale cutoff store acc (r :: (rest ++ bad :: post))
          = Playstore.processLocale cutoff store acc (r :: rest)
        rw [hstep2, hstep]
        exact ih s2 (acc ++ [rev]) h

theorem mem_modNamesIn (mods : List String) (cs : List Reddit.RComment) :
    ∀ a : String, a ∈ Reddit.modNamesIn mods cs
      ↔ ∃ c ∈ cs, pyLower c.author = a ∧ a ∈ mods := by
  induction cs with
  | nil => intro a; simp [Reddit.modNamesIn]
  | cons c rest ih =>
    intro a
    by_cases hm : pyLower c.author ∈ mods
    · simp only [Reddit.modNamesIn, if_pos hm, List.mem_cons]
      constructor
      · rintro (rfl | hmem)
        · exact ⟨c, Or.inl rfl, rfl, hm⟩
        · rcases (ih a).mp hmem with ⟨c2, hc2, hpa, ham⟩
          exact ⟨c2, Or.inr hc2, hpa, ham⟩
      · rintro ⟨c2, hc2 | hc2, hpa, ham⟩
        · subst hc2; exact Or.inl hpa.symm
        · exact Or.inr ((ih a).mpr ⟨c2, hc2, hpa, ham⟩)
    · simp only [Reddit.modNamesIn, if_neg hm]
      constructor
      · intro hmem
        rcases (ih a).mp hmem with ⟨c2, hc2, hpa, ham⟩
        exact ⟨c2, List.mem_cons_of_mem c hc2, hpa, ham⟩
      · rintro ⟨c2, hc2, hpa, ham⟩
        rcases List.mem_cons.mp hc2 with hc2 | hc2
        · subst hc2
          rw [hpa] at hm
          exact absurd ham hm
        · exact (ih a).mpr ⟨c2, hc2, hpa, ham⟩

/-! ## Claims -/

/-- Claim C1 (code bug): the promised New / Updated / Unchanged three-run
sequence does not happen in the code.  The Reddit monitor's update branch is
unreachable — its `elif` repeats `not has_been_alerted(post_id)`, so no run
ever classifies a post as `updated`; concretely a post recorded without a mod
reply whose reply has now appeared is classified `unchanged` with no dispatch.
The Trustpilot and Play Store monitors skip any recorded id outright, so a
recorded review whose company reply has since appeared is likewise not
re-emitted and not dispatched. -/
theorem c1_reply_transition_unreachable :
    (∀ (mods : List String) (store : Reddit.RedditStore) (post : Reddit.RedditPost),
      (Reddit.redditStep mods store post).2.1 = Classification.new
      ∨ (Reddit.redditStep mods store post).2.1 = Classification.unchanged)
    ∧ Reddit.redditStep exMods exStoreP1 exPost
        = (exStoreP1, Classification.unchanged, false)
    ∧ (Trustpilot.get_new_reviews 94 [("tp5", tpFine)] [tpFineReplied]).2 = []
    ∧ Trustpilot.trustpilot_dispatched 94 5 [("tp5", tpFine)] [tpFineReplied] = []
    ∧ (Playstore.fetch_reviews 0 [("a", psRev1)] [] [[psGood1R]]).2 = [] := by
  refine ⟨?_, ?_, ?_, ?_, ?_⟩
  · intro mods store post
    unfold Reddit.redditStep
    split_ifs with h1
    · exact Or.inl rfl
    · simp [h1]
  · simp [Reddit.redditStep, Reddit.extract_all_comments, Reddit.has_mod_reply,
      Reddit.modNamesIn, Reddit.has_been_alerted, Reddit.mark_as_alerted,
      storeHas, pyLower, exMods, exStoreP1, exPost]
  · decide
  · decide
  · decide

/-- Claim C2 counterexample: a valid five-star Trustpilot review inside the
recency window is classified New (it is in `all_new_reviews`) yet `main`
dispatches only `negative_reviews` (rating at most the threshold, 3 here), so
the review is never handed to the Notifier. -/
theorem c2_counterexample :
    (Trustpilot.get_new_reviews 94 [] [tpFine]).2 = [tpFine]
    ∧ Trustpilot.trustpilot_dispatched 94 3 [] [tpFine] = [] := by
  constructor
  · decide
  · decide

/-- Claim C2 as amended: an item is handed to the Notifier iff it is
classified New and passes the variant's rating filter — the Trustpilot main
dispatches a new review iff its rating is at most the configured threshold,
the Play Store main loop filters on rating ≤ 5, and the Reddit monitor
dispatches exactly the posts its first (New) branch accepts. -/
theorem c2_dispatch_rule (cutoff th : Int) (ts : Trustpilot.TStore)
    (scraped : List Review) (revs : List Review) (r : Review)
    (mods : List String) (rs : Reddit.RedditStore) (p : Reddit.RedditPost) :
    (r ∈ Trustpilot.trustpilot_dispatched cutoff th ts scraped
      ↔ r ∈ (Trustpilot.get_new_reviews cutoff ts scraped).2 ∧ r.rating ≤ th)
    ∧ (r ∈ Playstore.playstore_dispatched revs ↔ r ∈ revs ∧ r.rating ≤ 5)
    ∧ ((Reddit.redditStep mods rs p).2.2 = true
      ↔ (Reddit.redditStep mods rs p).2.1 = Classification.new) := by
  refine ⟨?_, ?_, ?_⟩
  · simp [Trustpilot.trustpilot_dispatched, Trustpilot.get_negative_reviews,
      List.mem_filter]
  · simp [Playstore.playstore_dispatched, List.mem_filter]
  · unfold Reddit.redditStep
    split_ifs with h1
    · simp
    · simp [h1]

/-- Witness for the amended C2 rule at a concrete negative review. -/
theorem c2_witness :
    tpLow ∈ Trustpilot.trustpilot_dispatched 94 3 [] [tpLow]
      ↔ tpLow ∈ (Trustpilot.get_new_reviews 94 [] [tpLow]).2 ∧ tpLow.rating ≤ 3 :=
  (c2_dispatch_rule 94 3 [] [tpLow] [] tpLow [] [] ⟨"q", []⟩).1

/-- Claim C3: classification is idempotent in all three monitors.  A Reddit
post not yet in the store is classified New; re-processing it against the
resulting store yields `unchanged` with no dispatch.  A Trustpilot review not
yet in the store and inside the window is emitted once; re-running on the
resulting store emits nothing.  A well-formed Play Store record whose id is
not yet in the store and inside the window is collected once; re-processing
it against the resulting store (its `is_review_processed` skip path) collects
nothing.  The same id is thus never classified New twice. -/
theorem c3_idempotent (mods : List String) (rs : Reddit.RedditStore)
    (p : Reddit.RedditPost) (cutoff : Int) (ts : Trustpilot.TStore) (r : Review)
    (ps : Playstore.PSStore) (dt score : Int) (rid content userName : String)
    (rc : Option String) (ra : Option Int)
    (h1 : Reddit.has_been_alerted rs p.id = false)
    (h2 : Trustpilot.is_review_processed ts r.review_id = false)
    (h3 : cutoff ≤ r.date_time)
    (h4 : Playstore.is_review_processed ps rid = false)
    (h5 : cutoff ≤ dt) :
    ((Reddit.redditStep mods rs p).2.1 = Classification.new
      ∧ (Reddit.redditStep mods (Reddit.redditStep mods rs p).1 p).2
          = (Classification.unchanged, false))
    ∧ ((Trustpilot.get_new_reviews cutoff ts [r]).2 = [r]
      ∧ (Trustpilot.get_new_reviews cutoff
          (Trustpilot.get_new_reviews cutoff ts [r]).1 [r]).2 = [])
    ∧ ((Playstore.processLocale cutoff ps []
          [⟨some dt, some rid, some content, some score, some userName, rc, ra⟩]).2.map
            (fun rv => rv.review_id) = [rid]
      ∧ (Playstore.processLocale cutoff
          (Playstore.processLocale cutoff ps []
            [⟨some dt, some rid, some content, some score, some userName, rc, ra⟩]).1 []
          [⟨some dt, some rid, some content, some score, some userName, rc, ra⟩]).2
          = []) := by
  have hstep : Reddit.redditStep mods rs p
      = (Reddit.mark_as_alerted rs p.id
          (Reddit.has_mod_reply mods (Reddit.extract_all_comments p.comments)).1,
        Classification.new, true) := by
    simp [Reddit.redditStep, h1]
  have halert : Reddit.has_been_alerted
      (Reddit.mark_as_alerted rs p.id
        (Reddit.has_mod_reply mods (Reddit.extract_all_comments p.comments)).1) p.id
      = true :=
    storeHas_upsert_self rs p.id _
  have htp := tp_single_new cutoff ts r h2 h3
  have halert2 : Trustpilot.is_review_processed
      (Trustpilot.save_review ts r) r.review_id = true :=
    storeHas_upsert_self ts r.review_id r
  have hnl : ¬ dt < cutoff := not_lt.mpr h5
  have h4s : storeHas ps rid = false := h4
  have halert3 : Playstore.is_review_processed
      (Playstore.processLocale cutoff ps []
        [⟨some dt, some rid, some content, some score, some userName, rc, ra⟩]).1 rid
      = true := by
    simp [Playstore.processLocale, Playstore.processPSRecord, hnl, h4, h4s,
      Playstore.is_review_processed, Playstore.save_review, storeHas_upsert_self]
  refine ⟨⟨?_, ?_⟩, ⟨?_, ?_⟩, ?_, ?_⟩
  · rw [hstep]
  · rw [hstep]
    simp [Reddit.redditStep, halert]
  · rw [htp]
  · rw [htp]
    simp [Trustpilot.get_new_reviews, Trustpilot.get_new_reviews_go, halert2]
  · simp [Playstore.processLocale, Playstore.processPSRecord, hnl, h4, h4s]
  · simp [Playstore.processLocale, Playstore.processPSRecord, hnl, halert3,
      Playstore.is_review_processed] at halert3 ⊢
    simp [halert3]

/-- Witness for C3 on a fresh store in each monitor. -/
theorem c3_witness :
    ((Reddit.redditStep exMods [] exPost).2.1 = Classification.new
      ∧ (Reddit.redditStep exMods (Reddit.redditStep exMods [] exPost).1 exPost).2
          = (Classification.unchanged, false))
    ∧ ((Trustpilot.get_new_reviews 94 [] [tpFine]).2 = [tpFine]
      ∧ (Trustpilot.get_new_reviews 94
          (Trustpilot.get_new_reviews 94 [] [tpFine]).1 [tpFine]).2 = [])
    ∧ ((Playstore.processLocale 94 [] []
          [⟨some 95, some "a", some "good one!", some 5, some "Ann", none, none⟩]).2.map
            (fun rv => rv.review_id) = ["a"]
      ∧ (Playstore.processLocale 94
          (Playstore.processLocale 94 [] []
            [⟨some 95, some "a", some "good one!", some 5, some "Ann", none, none⟩]).1 []
          [⟨some 95, some "a", some "good one!", some 5, some "Ann", none, none⟩]).2
          = []) :=
  c3_idempotent exMods [] exPost 94 [] tpFine [] 95 5 "a" "good one!" "Ann"
    none none rfl rfl (by decide) rfl (by decide)

/-- Claim C4 counterexample: in the Play Store monitor a malformed record
(missing `content` field) aborts the remainder of its locale batch — the
well-formed record after it (id `c`, which parses fine on its own) is never
classified. -/
theorem c4_counterexample :
    (Playstore.fetch_reviews 0 [] [] [[psGood1, psBad, psGood2]]).2.map
        (fun rv => rv.review_id) = ["a"]
    ∧ (Playstore.fetch_reviews 0 [] [] [[psGood2]]).2.map
        (fun rv => rv.review_id) = ["c"] := by
  constructor
  · decide
  · decide

/-- Claim C4 as amended: a parse failure is isolated per record only in the
Trustpilot (ReviewSite) monitor; in the Play Store monitor the first record
that raises aborts the remainder of that locale batch, keeping what was
already collected (other locale batches are unaffected). -/
theorem c4_parse_isolation (c : Trustpilot.TContainer)
    (pre post : List Trustpilot.TContainer) (cutoff : Int)
    (store : Playstore.PSStore) (acc : List Review)
    (pre2 post2 : List Playstore.RawPSReview) (bad : Playstore.RawPSReview)
    (hc : Trustpilot.extract_review_data c = none)
    (hb : Playstore.processPSRecord cutoff
        (Playstore.processLocale cutoff store acc pre2).1 bad = none) :
    Trustpilot.extractPage (pre ++ c :: post)
      = Trustpilot.extractPage pre ++ Trustpilot.extractPage post
    ∧ Playstore.processLocale cutoff store acc (pre2 ++ bad :: post2)
      = Playstore.processLocale cutoff store acc pre2 := by
  constructor
  · unfold Trustpilot.extractPage
    rw [List.filterMap_append]
    simp [List.filterMap_cons, hc]
  · exact ps_locale_append_abort cutoff bad post2 pre2 store acc hb

/-- Witness for C4: a bad container amid two good Trustpilot reviews, and a
bad Play Store record after one good one. -/
theorem c4_witness :
    Trustpilot.extractPage ([Trustpilot.TContainer.ok tpFine]
        ++ Trustpilot.TContainer.bad :: [Trustpilot.TContainer.ok tpLow])
      = Trustpilot.extractPage [Trustpilot.TContainer.ok tpFine]
        ++ Trustpilot.extractPage [Trustpilot.TContainer.ok tpLow]
    ∧ Playstore.processLocale 0 [] [] ([psGood1] ++ psBad :: [psGood2])
      = Playstore.processLocale 0 [] [] [psGood1] :=
  c4_parse_isolation Trustpilot.TContainer.bad [Trustpilot.TContainer.ok tpFine]
    [Trustpilot.TContainer.ok tpLow] 0 [] [] [psGood1] [psGood2] psBad rfl (by decide)

/-- Claim C5 counterexample: the matching is not case-insensitive on the
configured side — `has_mod_reply` lowercases only the comment author, so a
configured moderator name containing an uppercase letter never matches an
author that equals it case-insensitively. -/
theorem c5_counterexample :
    (Reddit.has_mod_reply exModsUpper [⟨"t1", "mod1", []⟩]).1 = false
    ∧ pyLower "mod1" = pyLower "Mod1" := by
  constructor
  · decide
  · decide

/-- Claim C5 as amended: the reply state is Replied iff some comment's
lowercased author is literally a member of the configured moderator set (the
configured names are not case-folded), and the marker reported to Slack is
the deduplicated list of matching lowercased author names. -/
theorem c5_mod_reply_rule (mods : List String) (comments : List Reddit.RComment) :
    ((Reddit.has_mod_reply mods comments).1 = true
      ↔ ∃ c ∈ comments, pyLower c.author ∈ mods)
    ∧ (Reddit.slackModNames (Reddit.has_mod_reply mods comments).2).Nodup
    ∧ ∀ a : String,
        a ∈ Reddit.slackModNames (Reddit.has_mod_reply mods comments).2
        ↔ ∃ c ∈ comments, pyLower c.author = a ∧ a ∈ mods := by
  refine ⟨?_, ?_, ?_⟩
  · show (!(Reddit.modNamesIn mods comments).isEmpty) = true ↔ _
    constructor
    · intro hne
      cases hns : Reddit.modNamesIn mods comments with
      | nil => rw [hns] at hne; simp at hne
      | cons a tl =>
        have ha : a ∈ Reddit.modNamesIn mods comments := by
          rw [hns]; exact List.mem_cons_self a tl
        rcases (mem_modNamesIn mods comments a).mp ha with ⟨c, hcm, hpa, ham⟩
        rw [← hpa] at ham
        exact ⟨c, hcm, ham⟩
    · rintro ⟨c, hcm, hm⟩
      have ha : pyLower c.author ∈ Reddit.modNamesIn mods comments :=
        (mem_modNamesIn mods comments (pyLower c.author)).mpr ⟨c, hcm, rfl, hm⟩
      cases hns : Reddit.modNamesIn mods comments with
      | nil => rw [hns] at ha; exact absurd ha (List.not_mem_nil _)
      | cons a tl => simp
  · exact List.nodup_dedup _
  · intro a
    show a ∈ (Reddit.modNamesIn mods comments).dedup ↔ _
    rw [List.mem_dedup]
    exact mem_modNamesIn mods comments a

/-- Witness for C5: an uppercase author matches a lowercase configured name. -/
theorem c5_witness :
    (Reddit.has_mod_reply exMods [⟨"t1", "MOD1", []⟩]).1 = true :=
  (c5_mod_reply_rule exMods [⟨"t1", "MOD1", []⟩]).1.mpr
    ⟨⟨"t1", "MOD1", []⟩, by simp, by decide⟩

/-- Claim C6 counterexample: a review violating none of the claim's listed
conditions (title is not "No title", content is not "..." and has stripped
length 6, reviewer name is not a placeholder, rating 5 is in range) is still
rejected — its content is six dots, caught by the dots-only pattern. -/
theorem c6_counterexample :
    Trustpilot.is_valid_review tpDots = false
    ∧ tpDots.title = "Great product"
    ∧ tpDots.content = "......"
    ∧ (pyStrip tpDots.content).length = 6
    ∧ tpDots.reviewer_name = "John"
    ∧ tpDots.rating = 5 := by
  refine ⟨?_, rfl, rfl, ?_, rfl, rfl⟩
  · decide
  · decide

/-- Claim C6 as amended: a review is rejected iff its lowercased stripped
title is a placeholder, or its lowercased stripped content is a placeholder,
or its stripped content is shorter than 5 characters or consists of 3 or more
dots only, or its reviewer name is empty or a lowercased placeholder, or its
rating is outside 1-5; rejected reviews never appear in a scraped page's
output (so they are not stored and not notified). -/
theorem c6_validity_filter (r : Review) :
    (Trustpilot.is_valid_review r = false
      ↔ pyStrip (pyLower r.title) ∈ Trustpilot.invalidTitles
        ∨ pyStrip (pyLower r.content) ∈ Trustpilot.invalidContentPatterns
        ∨ (pyStrip r.content).length < 5
        ∨ Trustpilot.onlyDots (pyStrip r.content) = true
        ∨ (r.reviewer_name = ""
            ∨ pyLower r.reviewer_name ∈ Trustpilot.invalidReviewerNames)
        ∨ (r.rating < 1 ∨ 5 < r.rating))
    ∧ ∀ cs : List Trustpilot.TContainer,
        r ∈ Trustpilot.extractPage cs → Trustpilot.is_valid_review r = true := by
  constructor
  · unfold Trustpilot.is_valid_review
    split_ifs with h1 h2 h3 h4 h5 h6 <;> simp_all
  · intro cs hmem
    rcases List.mem_filterMap.mp hmem with ⟨c, _, hc⟩
    cases c with
    | bad => simp [Trustpilot.extract_review_data] at hc
    | ok r0 =>
      simp only [Trustpilot.extract_review_data] at hc
      by_cases hv : Trustpilot.is_valid_review r0 = true
      · rw [if_pos hv] at hc
        injection hc with hc
        subst hc
        exact hv
      · rw [if_neg hv] at hc
        exact Option.noConfusion hc

/-- Witness for C6: a fully valid review passes the filter and survives page
extraction. -/
theorem c6_witness : Trustpilot.is_valid_review tpFine = true :=
  (c6_validity_filter tpFine).2 [Trustpilot.TContainer.ok tpFine] (by decide)

/-- Claim C7: the recency window is applied relative to the cutoff
`now - hours_back`.  A not-yet-processed Trustpilot review is retained iff
its timestamp is at or after the cutoff; a well-formed, not-yet-processed
Play Store record is collected iff its timestamp is at or after the cutoff. -/
theorem c7_recency_window (now hb : Int) (ts : Trustpilot.TStore) (r : Review)
    (ps : Playstore.PSStore) (dt score : Int) (rid content userName : String)
    (rc : Option String) (ra : Option Int)
    (h1 : Trustpilot.is_review_processed ts r.review_id = false)
    (h2 : Playstore.is_review_processed ps rid = false) :
    (r ∈ (Trustpilot.get_new_reviews (now - hb) ts [r]).2 ↔ now - hb ≤ r.date_time)
    ∧ ((Playstore.processLocale (now - hb) ps []
          [⟨some dt, some rid, some content, some score, some userName, rc, ra⟩]).2.map
            (fun rv => rv.review_id) = [rid]
        ↔ now - hb ≤ dt) := by
  constructor
  · by_cases hdt : now - hb ≤ r.date_time
    · rw [tp_single_new (now - hb) ts r h1 hdt]
      simp [hdt]
    · simp [Trustpilot.get_new_reviews, Trustpilot.get_new_reviews_go, hdt]
  · by_cases hdt : now - hb ≤ dt
    · have hnl : ¬ dt < now - hb := not_lt.mpr hdt
      simp [Playstore.processLocale, Playstore.processPSRecord, hnl, h2, hdt]
    · have hl : dt < now - hb := not_le.mp hdt
      simp [Playstore.processLocale, Playstore.processPSRecord, hl, hdt]

/-- Witness for C7: with `now = 100` and `hours_back = 6`, a review five
hours old is retained. -/
theorem c7_witness :
    tpFine ∈ (Trustpilot.get_new_reviews (100 - 6) [] [tpFine]).2 :=
  ((c7_recency_window 100 6 [] tpFine [] 95 5 "a" "good one!" "Ann" none none
    rfl rfl).1).mpr (by decide)

/-- Claim C8: a single Play Store normalizer call never yields two reviews
with the same id — every output of `fetch_reviews` has pairwise-distinct ids,
for any initial store and any fan-out of locale batches; concretely, the same
raw review appearing in two locale batches is yielded exactly once. -/
theorem c8_normalizer_dedup (cutoff : Int) (store : Playstore.PSStore)
    (batches : List (List Playstore.RawPSReview)) :
    ((Playstore.fetch_reviews cutoff store [] batches).2.map
        (fun rv => rv.review_id)).Nodup
    ∧ (Playstore.fetch_reviews 0 [] [] [[psGood1], [psGood1]]).2.map
        (fun rv => rv.review_id) = ["a"] := by
  constructor
  · exact (ps_fetch_inv cutoff batches store []
      (fun rv h => absurd h (List.not_mem_nil rv)) List.nodup_nil).2
  · decide

/-- Claim C9: once an item's SeenRecord write has succeeded, nothing in a
later run dispatches it again.  After a Trustpilot review is persisted, its
id is in the store and any subsequent run neither re-emits nor dispatches it
(the store result never depends on the delivery outcome, which the code does
not read); a Reddit post already in the store yields `unchanged` with no
dispatch and an unchanged store; every review collected by the Play Store
fetch was absent from the store at the start of the run. -/
theorem c9_no_renotification (cutoff th : Int) (ts : Trustpilot.TStore) (r : Review)
    (scraped2 : List Review) (mods : List String) (rs : Reddit.RedditStore)
    (p : Reddit.RedditPost) (ps : Playstore.PSStore)
    (batches : List (List Playstore.RawPSReview))
    (h1 : Trustpilot.is_review_processed ts r.review_id = false)
    (h2 : cutoff ≤ r.date_time)
    (h3 : Reddit.has_been_alerted rs p.id = true) :
    (Trustpilot.is_review_processed (Trustpilot.get_new_reviews cutoff ts [r]).1
        r.review_id = true
      ∧ r ∉ (Trustpilot.get_new_reviews cutoff
          (Trustpilot.get_new_reviews cutoff ts [r]).1 scraped2).2
      ∧ r ∉ Trustpilot.trustpilot_dispatched cutoff th
          (Trustpilot.get_new_reviews cutoff ts [r]).1 scraped2)
    ∧ Reddit.redditStep mods rs p = (rs, Classification.unchanged, false)
    ∧ ∀ rv ∈ (Playstore.fetch_reviews cutoff ps [] batches).2,
        Playstore.is_review_processed ps rv.review_id = false := by
  have hrun1 := tp_single_new cutoff ts r h1 h2
  have hpersist : Trustpilot.is_review_processed
      (Trustpilot.get_new_reviews cutoff ts [r]).1 r.review_id = true := by
    rw [hrun1]
    exact storeHas_upsert_self ts r.review_id r
  refine ⟨⟨hpersist, ?_, ?_⟩, ?_, ?_⟩
  · intro hmem
    have hnp := tp_mem_not_processed cutoff _ scraped2 r hmem
    rw [hpersist] at hnp
    exact Bool.noConfusion hnp
  · intro hmem
    simp only [Trustpilot.trustpilot_dispatched, Trustpilot.get_negative_reviews] at hmem
    have hmem2 := (List.mem_filter.mp hmem).1
    have hnp := tp_mem_not_processed cutoff _ scraped2 r hmem2
    rw [hpersist] at hnp
    exact Bool.noConfusion hnp
  · simp [Reddit.redditStep, h3]
  · intro rv hmem
    rcases ps_fetch_mem cutoff batches ps [] rv hmem with hin | hnp
    · exact absurd hin (List.not_mem_nil rv)
    · exact hnp

/-- Witness for C9 on concrete data. -/
theorem c9_witness :
    (Trustpilot.is_review_processed (Trustpilot.get_new_reviews 94 [] [tpFine]).1
        tpFine.review_id = true
      ∧ tpFine ∉ (Trustpilot.get_new_reviews 94
          (Trustpilot.get_new_reviews 94 [] [tpFine]).1 [tpFine]).2
      ∧ tpFine ∉ Trustpilot.trustpilot_dispatched 94 3
          (Trustpilot.get_new_reviews 94 [] [tpFine]).1 [tpFine])
    ∧ Reddit.redditStep exMods exStoreP1 exPost
        = (exStoreP1, Classification.unchanged, false)
    ∧ ∀ rv ∈ (Playstore.fetch_reviews 94 [] [] [[psGood1]]).2,
        Playstore.is_review_processed ([] : Playstore.PSStore) rv.review_id = false :=
  c9_no_renotification 94 3 [] tpFine [tpFine] exMods exStoreP1 exPost [] [[psGood1]]
    rfl (by decide) (by decide)

/-- Claim C10: the per-id state stored alongside each id is write-only for
classification — every lookup reads only whether the id exists.  Two stores
holding the same ids but arbitrary different aux columns (mod_replied,
company_replied, reply content and date, ...) produce identical
classifications, identical normalizer outputs and identical dispatches. -/
theorem c10_aux_state_irrelevant (mods : List String) (posts : List Reddit.RedditPost)
    (rs1 rs2 : Reddit.RedditStore) (cutoff th : Int) (ts1 ts2 : Trustpilot.TStore)
    (scraped : List Review) (ps1 ps2 : Playstore.PSStore)
    (batches : List (List Playstore.RawPSReview))
    (hr : ∀ id, Reddit.has_been_alerted rs1 id = Reddit.has_been_alerted rs2 id)
    (ht : ∀ id, Trustpilot.is_review_processed ts1 id
        = Trustpilot.is_review_processed ts2 id)
    (hp : ∀ id, Playstore.is_review_processed ps1 id
        = Playstore.is_review_processed ps2 id) :
    Reddit.redditRun mods rs1 posts = Reddit.redditRun mods rs2 posts
    ∧ (Trustpilot.get_new_reviews cutoff ts1 scraped).2
        = (Trustpilot.get_new_reviews cutoff ts2 scraped).2
    ∧ Trustpilot.trustpilot_dispatched cutoff th ts1 scraped
        = Trustpilot.trustpilot_dispatched cutoff th ts2 scraped
    ∧ (Playstore.fetch_reviews cutoff ps1 [] batches).2
        = (Playstore.fetch_reviews cutoff ps2 [] batches).2 := by
  have hr2 : ∀ id, storeHas rs1 id = storeHas rs2 id := hr
  have ht2 : ∀ id, storeHas ts1 id = storeHas ts2 id := ht
  have hp2 : ∀ id, storeHas ps1 id = storeHas ps2 id := hp
  have htp := tp_go_congr cutoff scraped ts1 ts2 [] ht2
  refine ⟨redditRun_congr mods posts rs1 rs2 hr2, htp.1, ?_,
    ps_fetch_congr cutoff batches ps1 ps2 [] hp2⟩
  unfold Trustpilot.trustpilot_dispatched Trustpilot.get_negative_reviews
    Trustpilot.get_new_reviews
  rw [htp.1]

/-- Witness for C10: stores that agree on ids but disagree on every stored
reply-state column produce the same run results. -/
theorem c10_witness :
    Reddit.redditRun exMods exStoreP1 [exPost]
      = Reddit.redditRun exMods exStoreP1R [exPost]
    ∧ (Trustpilot.get_new_reviews 94 [("tp5", tpFine)] [tpFineReplied]).2
        = (Trustpilot.get_new_reviews 94 [("tp5", tpFineReplied)] [tpFineReplied]).2
    ∧ Trustpilot.trustpilot_dispatched 94 3 [("tp5", tpFine)] [tpFineReplied]
        = Trustpilot.trustpilot_dispatched 94 3 [("tp5", tpFineReplied)] [tpFineReplied]
    ∧ (Playstore.fetch_reviews 0 [("a", psRev1)] [] [[psGood1]]).2
        = (Playstore.fetch_reviews 0 [("a", psRev1R)] [] [[psGood1]]).2 :=
  c10_aux_state_irrelevant exMods [exPost] exStoreP1 exStoreP1R 94 3
    [("tp5", tpFine)] [("tp5", tpFineReplied)] [tpFineReplied]
    [("a", psRev1)] [("a", psRev1R)] [[psGood1]]
    (fun _ => rfl) (fun _ => rfl) (fun _ => rfl)

end ReviewAlerts
